import Mathlib

/-!
# Verification of the glowbot turn-orchestration core

Shallow embedding of the glowbot repository (Python) in Lean 4.

Strings are modelled as `List Char` (`Str`).  Python operations used by the
source (`str.split`, `str.strip`, `str.lower`, slicing, substring tests,
`"sep".join`) are embedded as executable functions on `Str`.

Embedded modules:
* `src/app/services/message_splitter.py` — `split_for_whatsapp`
* `src/app/schemas.py` — user profile / updates / routine data model
* `src/app/services/orchestrator.py` — `GlowBotService` turn handling
* `src/app/main.py` — the inbound debounce buffer flush
-/

set_option maxHeartbeats 1000000
set_option maxRecDepth 120000

abbrev Str := List Char

/-- Characters treated as whitespace by Python `str.strip()` (the default
strip set, i.e. exactly the characters for which `str.isspace()` holds:
ASCII whitespace including the U+001C–U+001F separators, NEL, NBSP, Ogham
space mark, the U+2000–U+200A spaces, line/paragraph separators, narrow and
medium mathematical spaces, and the ideographic space). -/
def isPySpace (c : Char) : Bool :=
  c = ' ' || c = '\t' || c = '\n' || c = '\r' || c.toNat = 0x0b || c.toNat = 0x0c ||
  (0x1c ≤ c.toNat && c.toNat ≤ 0x1f) ||
  c.toNat = 0x85 || c.toNat = 0xa0 || c.toNat = 0x1680 ||
  (0x2000 ≤ c.toNat && c.toNat ≤ 0x200a) ||
  c.toNat = 0x2028 || c.toNat = 0x2029 || c.toNat = 0x202f || c.toNat = 0x205f ||
  c.toNat = 0x3000

/-- Python `s.strip()`: drop whitespace from both ends. -/
def pyStrip (s : Str) : Str :=
  ((s.dropWhile isPySpace).reverse.dropWhile isPySpace).reverse

/-- Python `s.lower()` restricted to ASCII letters (the only cased characters
the embedded source compares). -/
def pyLower (s : Str) : Str :=
  s.map fun c => if 'A' ≤ c && c ≤ 'Z' then Char.ofNat (c.toNat + 32) else c

/-- Python substring test `needle in hay`. -/
def containsSub (needle : Str) : Str → Bool
  | [] => needle.isEmpty
  | c :: rest => needle.isPrefixOf (c :: rest) || containsSub needle rest

/-- Python `sep.join(parts)`. -/
def joinSep (sep : Str) : List Str → Str
  | [] => []
  | [p] => p
  | p :: ps => p ++ sep ++ joinSep sep ps

/-- Python `s.split("\n")` (single-newline separator, keeps empty pieces). -/
def splitLines : Str → List Str
  | [] => [[]]
  | c :: rest =>
    if c = '\n' then [] :: splitLines rest
    else
      match splitLines rest with
      | [] => [[c]]
      | p :: ps => (c :: p) :: ps

/-- Python `s.split("\n\n")` (blank-line separator, leftmost non-overlapping). -/
def splitParas : Str → List Str
  | [] => [[]]
  | [c] => [[c]]
  | c :: d :: rest =>
    if c = '\n' ∧ d = '\n' then [] :: splitParas rest
    else
      match splitParas (d :: rest) with
      | [] => [[c]]
      | p :: ps => (c :: p) :: ps

/-- The `while line: parts.append(line[:max_len]); line = line[max_len:]`
loop of `split_for_whatsapp` (hard split).  The Python loop does not
terminate when `max_len = 0`; that case is modelled as a single chunk and all
theorems assume `0 < maxLen`. -/
def hardSplit (maxLen : Nat) (l : Str) : List Str :=
  if l = [] then []
  else if maxLen = 0 then [l]
  else l.take maxLen :: hardSplit maxLen (l.drop maxLen)
termination_by l.length
decreasing_by
  simp only [List.length_drop]
  rename_i h1 h2
  have : 0 < l.length := List.length_pos.mpr h1
  omega

/-- Body of the `for line in lines:` loop of `split_for_whatsapp`
(state = accumulated `parts` and the running `current`). -/
def lineStep (maxLen : Nat) (st : List Str × Str) (line : Str) : List Str × Str :=
  let parts := st.1
  let current := st.2
  let candidate := if current = [] then line else current ++ '\n' :: line
  if candidate.length ≤ maxLen then (parts, candidate)
  else
    let parts1 := if current = [] then parts else parts ++ [pyStrip current]
    if maxLen < line.length then (parts1 ++ hardSplit maxLen line, [])
    else (parts1, line)

/-- Body of the `for para in paragraphs:` loop of `split_for_whatsapp`. -/
def paraStep (maxLen : Nat) (st : List Str × Str) (para : Str) : List Str × Str :=
  let parts := st.1
  let current := st.2
  let candidate := if current = [] then para else current ++ '\n' :: '\n' :: para
  if candidate.length ≤ maxLen then (parts, candidate)
  else
    let parts1 := if current = [] then parts else parts ++ [pyStrip current]
    if maxLen < para.length then (splitLines para).foldl (lineStep maxLen) (parts1, [])
    else (parts1, para)

/-- The `parts` list accumulated by `split_for_whatsapp` before the final
fallback and part-indicator steps. -/
def splitRaw (maxLen : Nat) (text : Str) : List Str :=
  let st := (splitParas text).foldl (paraStep maxLen) ([], [])
  if pyStrip st.2 = [] then st.1 else st.1 ++ [pyStrip st.2]

/-- The chunk bodies returned by `split_for_whatsapp` (before part indicators
are prepended): the single-chunk fast path, the `if not parts` fallback, or
the accumulated parts. -/
def split_parts (maxLen : Nat) (text : Str) : List Str :=
  if text.length ≤ maxLen then [text]
  else if splitRaw maxLen text = [] then [text.take maxLen]
  else splitRaw maxLen text

/-- The `f"({i + 1}/{total})\n{part}"` part indicator. -/
def chunkTag (i total : Nat) : Str :=
  '(' :: Nat.toDigits 10 i ++ '/' :: Nat.toDigits 10 total ++ [')', '\n']

/-- `split_for_whatsapp` from `src/app/services/message_splitter.py`
(`max_len` defaults to 1500 at the call sites). -/
def split_for_whatsapp (maxLen : Nat) (text : Str) : List Str :=
  let parts := split_parts maxLen text
  if 1 < parts.length then
    parts.enum.map fun ip => chunkTag (ip.1 + 1) parts.length ++ ip.2
  else parts

-- ── Generic lemmas about the embedded string operations ─────────────────────

/-- Characters removed by `pyStrip` are exactly the `isPySpace` characters:
deleting them commutes with stripping. -/
def removeWS (s : Str) : Str := s.filter fun c => !isPySpace c

theorem removeWS_append (a b : Str) : removeWS (a ++ b) = removeWS a ++ removeWS b := by
  simp [removeWS, List.filter_append]

theorem filter_dropWhile (p : Char → Bool) (l : Str) :
    (l.dropWhile p).filter (fun c => !p c) = l.filter (fun c => !p c) := by
  induction l with
  | nil => rfl
  | cons c l ih =>
    by_cases h : p c
    · simp [List.dropWhile_cons, h, ih, List.filter_cons]
    · simp [List.dropWhile_cons, h, List.filter_cons]

theorem removeWS_pyStrip (s : Str) : removeWS (pyStrip s) = removeWS s := by
  unfold pyStrip removeWS
  rw [List.filter_reverse, filter_dropWhile, List.filter_reverse, List.reverse_reverse,
    filter_dropWhile]

theorem removeWS_newline_cons (s : Str) : removeWS ('\n' :: s) = removeWS s := by
  simp [removeWS, List.filter_cons, isPySpace]

theorem length_dropWhile_le (p : Char → Bool) (l : Str) :
    (l.dropWhile p).length ≤ l.length := by
  induction l with
  | nil => simp
  | cons c l ih =>
    by_cases h : p c
    · simp only [List.dropWhile_cons, h, if_true]
      exact Nat.le_trans ih (Nat.le_succ _)
    · simp [List.dropWhile_cons, h]

theorem pyStrip_length_le (s : Str) : (pyStrip s).length ≤ s.length := by
  unfold pyStrip
  calc ((s.dropWhile isPySpace).reverse.dropWhile isPySpace).reverse.length
      = ((s.dropWhile isPySpace).reverse.dropWhile isPySpace).length := by
        simp
    _ ≤ (s.dropWhile isPySpace).reverse.length := length_dropWhile_le _ _
    _ = (s.dropWhile isPySpace).length := by simp
    _ ≤ s.length := length_dropWhile_le _ _

theorem hardSplit_flatten (maxLen : Nat) (h : maxLen ≠ 0) :
    ∀ l : Str, (hardSplit maxLen l).flatten = l := by
  intro l
  induction l using hardSplit.induct maxLen with
  | case1 => rw [hardSplit]; simp
  | case2 l h1 h2 => exact absurd h2 h
  | case3 l h1 h2 ih =>
    rw [hardSplit]
    simp only [if_neg h1, if_neg h2, List.flatten_cons, ih]
    exact List.take_append_drop _ _

theorem hardSplit_mem_length (maxLen : Nat) (h : maxLen ≠ 0) :
    ∀ l : Str, ∀ p ∈ hardSplit maxLen l, p.length ≤ maxLen := by
  intro l
  induction l using hardSplit.induct maxLen with
  | case1 => rw [hardSplit]; simp
  | case2 l h1 h2 => exact absurd h2 h
  | case3 l h1 h2 ih =>
    rw [hardSplit]
    simp only [if_neg h1, if_neg h2, List.mem_cons]
    intro p hp
    rcases hp with hp | hp
    · subst hp
      simp only [List.length_take]
      exact Nat.min_le_left _ _
    · exact ih p hp

/-- One pass of the line loop preserves accumulated non-whitespace content. -/
theorem lineStep_content (maxLen : Nat) (h : maxLen ≠ 0) (st : List Str × Str) (line : Str) :
    removeWS ((lineStep maxLen st line).1.flatten ++ (lineStep maxLen st line).2)
      = removeWS (st.1.flatten ++ st.2 ++ line) := by
  obtain ⟨parts, current⟩ := st
  by_cases hcur : current = []
  · subst hcur
    by_cases hlen : line.length ≤ maxLen
    · simp [lineStep, hlen]
    · have hgt : maxLen < line.length := Nat.lt_of_not_le hlen
      simp [lineStep, hlen, hgt, removeWS_append, hardSplit_flatten maxLen h]
  · by_cases hlen : (current ++ '\n' :: line).length ≤ maxLen
    all_goals simp only [List.length_append, List.length_cons] at hlen
    · simp [lineStep, hcur, hlen, removeWS_append, removeWS_newline_cons]
    · by_cases hgt : maxLen < line.length
      · simp [lineStep, hcur, hlen, hgt, removeWS_append, removeWS_pyStrip,
          removeWS_newline_cons, hardSplit_flatten maxLen h]
      · simp [lineStep, hcur, hlen, hgt, removeWS_append, removeWS_pyStrip,
          removeWS_newline_cons]

theorem lineStep_inv (maxLen : Nat) (h : maxLen ≠ 0) (st : List Str × Str) (line : Str)
    (hp : ∀ p ∈ st.1, p.length ≤ maxLen) (hc : st.2.length ≤ maxLen) :
    (∀ p ∈ (lineStep maxLen st line).1, p.length ≤ maxLen) ∧
      (lineStep maxLen st line).2.length ≤ maxLen := by
  obtain ⟨parts, current⟩ := st
  simp only at hp hc
  by_cases hcur : current = []
  · subst hcur
    by_cases hlen : line.length ≤ maxLen
    · constructor
      · intro p hp2
        simp [lineStep, hlen] at hp2
        exact hp p hp2
      · simp [lineStep, hlen]
    · have hgt := Nat.lt_of_not_le hlen
      constructor
      · intro p hp2
        simp [lineStep, hlen, hgt, List.mem_append] at hp2
        rcases hp2 with h1 | h1
        · exact hp p h1
        · exact hardSplit_mem_length maxLen h line p h1
      · simp [lineStep, hlen, hgt]
  · have hstrip : (pyStrip current).length ≤ maxLen :=
      Nat.le_trans (pyStrip_length_le current) hc
    by_cases hlen : (current ++ '\n' :: line).length ≤ maxLen
    all_goals simp only [List.length_append, List.length_cons] at hlen
    · constructor
      · intro p hp2
        simp [lineStep, hcur, hlen] at hp2
        exact hp p hp2
      · simp [lineStep, hcur, hlen]
    · by_cases hgt : maxLen < line.length
      · constructor
        · intro p hp2
          simp [lineStep, hcur, hlen, hgt, List.mem_append] at hp2
          rcases hp2 with h1 | h1 | h1
          · exact hp p h1
          · subst h1; exact hstrip
          · exact hardSplit_mem_length maxLen h line p h1
        · simp [lineStep, hcur, hlen, hgt]
      · constructor
        · intro p hp2
          simp [lineStep, hcur, hlen, hgt, List.mem_append] at hp2
          rcases hp2 with h1 | h1
          · exact hp p h1
          · subst h1; exact hstrip
        · simp [lineStep, hcur, hlen, hgt]
          exact Nat.le_of_not_lt hgt

theorem foldl_lineStep_content (maxLen : Nat) (h : maxLen ≠ 0) :
    ∀ (lines : List Str) (st : List Str × Str),
      removeWS ((lines.foldl (lineStep maxLen) st).1.flatten
          ++ (lines.foldl (lineStep maxLen) st).2)
        = removeWS (st.1.flatten ++ st.2 ++ lines.flatten) := by
  intro lines
  induction lines with
  | nil => intro st; simp
  | cons line rest ih =>
    intro st
    rw [List.foldl_cons, ih (lineStep maxLen st line)]
    calc removeWS ((lineStep maxLen st line).1.flatten ++ (lineStep maxLen st line).2
            ++ rest.flatten)
        = removeWS ((lineStep maxLen st line).1.flatten ++ (lineStep maxLen st line).2)
            ++ removeWS rest.flatten := by rw [removeWS_append]
      _ = removeWS (st.1.flatten ++ st.2 ++ line) ++ removeWS rest.flatten := by
            rw [lineStep_content maxLen h]
      _ = removeWS (st.1.flatten ++ st.2 ++ (line :: rest).flatten) := by
            simp [removeWS_append, List.flatten_cons, List.append_assoc]

theorem foldl_lineStep_inv (maxLen : Nat) (h : maxLen ≠ 0) :
    ∀ (lines : List Str) (st : List Str × Str),
      (∀ p ∈ st.1, p.length ≤ maxLen) → st.2.length ≤ maxLen →
      (∀ p ∈ (lines.foldl (lineStep maxLen) st).1, p.length ≤ maxLen) ∧
        (lines.foldl (lineStep maxLen) st).2.length ≤ maxLen := by
  intro lines
  induction lines with
  | nil => intro st hp hc; exact ⟨hp, hc⟩
  | cons line rest ih =>
    intro st hp hc
    rw [List.foldl_cons]
    obtain ⟨hp2, hc2⟩ := lineStep_inv maxLen h st line hp hc
    exact ih (lineStep maxLen st line) hp2 hc2

theorem removeWS_cons (c : Char) (s : Str) :
    removeWS (c :: s) = if isPySpace c then removeWS s else c :: removeWS s := by
  by_cases h : isPySpace c <;> simp [removeWS, List.filter_cons, h]

theorem splitLines_ne_nil (s : Str) : splitLines s ≠ [] := by
  cases s with
  | nil => simp [splitLines]
  | cons c rest =>
    simp only [splitLines]
    split
    · simp
    · split <;> simp

theorem splitLines_content : ∀ s : Str, removeWS (splitLines s).flatten = removeWS s := by
  intro s
  induction s with
  | nil => simp [splitLines]
  | cons c rest ih =>
    by_cases hc : c = '\n'
    · subst hc
      have hs : splitLines ('\n' :: rest) = [] :: splitLines rest := by
        simp [splitLines]
      rw [hs, removeWS_newline_cons]
      simpa using ih
    · simp only [splitLines, if_neg hc]
      cases hsl : splitLines rest with
      | nil => exact absurd hsl (splitLines_ne_nil rest)
      | cons p ps =>
        rw [hsl] at ih
        simp only [List.flatten_cons] at ih ⊢
        rw [show ((c :: p) ++ ps.flatten) = c :: (p ++ ps.flatten) from rfl,
          removeWS_cons, removeWS_cons, ih]

theorem splitParas_ne_nil (s : Str) : splitParas s ≠ [] := by
  match s with
  | [] => simp [splitParas]
  | [c] => simp [splitParas]
  | c :: d :: rest =>
    simp only [splitParas]
    split
    · simp
    · split <;> simp

theorem splitParas_content : ∀ s : Str, removeWS (splitParas s).flatten = removeWS s := by
  intro s
  induction s using splitParas.induct with
  | case1 => simp [splitParas]
  | case2 c => simp [splitParas]
  | case3 c d rest hcd ih =>
    obtain ⟨hc, hd⟩ := hcd
    subst hc; subst hd
    have hs : splitParas ('\n' :: '\n' :: rest) = [] :: splitParas rest := by
      simp [splitParas]
    rw [hs, removeWS_newline_cons, removeWS_newline_cons]
    simpa using ih
  | case4 c d rest hcd hnil ih => exact absurd hnil (splitParas_ne_nil _)
  | case5 c d rest hcd p ps hsl ih =>
    have hs : splitParas (c :: d :: rest) = (c :: p) :: ps := by
      simp only [splitParas, if_neg hcd, hsl]
    rw [hsl] at ih
    rw [hs]
    simp only [List.flatten_cons] at ih ⊢
    rw [show ((c :: p) ++ ps.flatten) = c :: (p ++ ps.flatten) from rfl,
      removeWS_cons, removeWS_cons, ih]

theorem paraStep_content (maxLen : Nat) (h : maxLen ≠ 0) (st : List Str × Str) (para : Str) :
    removeWS ((paraStep maxLen st para).1.flatten ++ (paraStep maxLen st para).2)
      = removeWS (st.1.flatten ++ st.2 ++ para) := by
  obtain ⟨parts, current⟩ := st
  by_cases hcur : current = []
  · subst hcur
    by_cases hlen : para.length ≤ maxLen
    · simp [paraStep, hlen]
    · have hgt := Nat.lt_of_not_le hlen
      simp only [paraStep, if_pos rfl, if_neg (Nat.not_le.mpr hgt), if_pos hgt, reduceIte]
      rw [foldl_lineStep_content maxLen h]
      simp [removeWS_append, splitLines_content]
  · by_cases hlen : (current ++ '\n' :: '\n' :: para).length ≤ maxLen
    all_goals simp only [List.length_append, List.length_cons] at hlen
    · simp [paraStep, hcur, hlen, removeWS_append, removeWS_newline_cons]
    · by_cases hgt : maxLen < para.length
      · simp only [paraStep, if_neg hcur, List.length_append, List.length_cons,
          if_neg (by omega : ¬(current.length + (para.length + 1 + 1) ≤ maxLen)), if_pos hgt]
        rw [foldl_lineStep_content maxLen h]
        simp [removeWS_append, splitLines_content, removeWS_pyStrip]
      · simp [paraStep, hcur, hlen, hgt, removeWS_append, removeWS_pyStrip,
          removeWS_newline_cons]

theorem paraStep_inv (maxLen : Nat) (h : maxLen ≠ 0) (st : List Str × Str) (para : Str)
    (hp : ∀ p ∈ st.1, p.length ≤ maxLen) (hc : st.2.length ≤ maxLen) :
    (∀ p ∈ (paraStep maxLen st para).1, p.length ≤ maxLen) ∧
      (paraStep maxLen st para).2.length ≤ maxLen := by
  obtain ⟨parts, current⟩ := st
  simp only at hp hc
  have hstrip : (pyStrip current).length ≤ maxLen :=
    Nat.le_trans (pyStrip_length_le current) hc
  have hparts1 : ∀ p ∈ (if current = [] then parts else parts ++ [pyStrip current]),
      p.length ≤ maxLen := by
    intro p hp2
    by_cases hcur : current = []
    · exact hp p (by simpa [hcur] using hp2)
    · simp only [if_neg hcur, List.mem_append, List.mem_singleton] at hp2
      rcases hp2 with h1 | h1
      · exact hp p h1
      · subst h1; exact hstrip
  by_cases hcur : current = []
  · subst hcur
    by_cases hlen : para.length ≤ maxLen
    · constructor
      · intro p hp2
        simp [paraStep, hlen] at hp2
        exact hp p hp2
      · simp [paraStep, hlen]
    · have hgt := Nat.lt_of_not_le hlen
      simp only [paraStep, if_pos rfl, if_neg (Nat.not_le.mpr hgt), if_pos hgt, reduceIte]
      refine foldl_lineStep_inv maxLen h _ _ ?_ (by simp)
      simpa using hparts1
  · by_cases hlen : (current ++ '\n' :: '\n' :: para).length ≤ maxLen
    all_goals simp only [List.length_append, List.length_cons] at hlen
    · constructor
      · intro p hp2
        simp [paraStep, hcur, hlen] at hp2
        exact hp p hp2
      · simp [paraStep, hcur, hlen]
    · by_cases hgt : maxLen < para.length
      · simp only [paraStep, if_neg hcur, List.length_append, List.length_cons,
          if_neg (by omega : ¬(current.length + (para.length + 1 + 1) ≤ maxLen)), if_pos hgt]
        refine foldl_lineStep_inv maxLen h _ _ ?_ (by simp)
        simpa [hcur] using hparts1
      · constructor
        · intro p hp2
          simp [paraStep, hcur, hlen, hgt, List.mem_append] at hp2
          rcases hp2 with h1 | h1
          · exact hp p h1
          · subst h1; exact hstrip
        · simp [paraStep, hcur, hlen, hgt]
          exact Nat.le_of_not_lt hgt

theorem foldl_paraStep_content (maxLen : Nat) (h : maxLen ≠ 0) :
    ∀ (paras : List Str) (st : List Str × Str),
      removeWS ((paras.foldl (paraStep maxLen) st).1.flatten
          ++ (paras.foldl (paraStep maxLen) st).2)
        = removeWS (st.1.flatten ++ st.2 ++ paras.flatten) := by
  intro paras
  induction paras with
  | nil => intro st; simp
  | cons para rest ih =>
    intro st
    rw [List.foldl_cons, ih (paraStep maxLen st para)]
    calc removeWS ((paraStep maxLen st para).1.flatten ++ (paraStep maxLen st para).2
            ++ rest.flatten)
        = removeWS ((paraStep maxLen st para).1.flatten ++ (paraStep maxLen st para).2)
            ++ removeWS rest.flatten := by rw [removeWS_append]
      _ = removeWS (st.1.flatten ++ st.2 ++ para) ++ removeWS rest.flatten := by
            rw [paraStep_content maxLen h]
      _ = removeWS (st.1.flatten ++ st.2 ++ (para :: rest).flatten) := by
            simp [removeWS_append, List.flatten_cons, List.append_assoc]

theorem foldl_paraStep_inv (maxLen : Nat) (h : maxLen ≠ 0) :
    ∀ (paras : List Str) (st : List Str × Str),
      (∀ p ∈ st.1, p.length ≤ maxLen) → st.2.length ≤ maxLen →
      (∀ p ∈ (paras.foldl (paraStep maxLen) st).1, p.length ≤ maxLen) ∧
        (paras.foldl (paraStep maxLen) st).2.length ≤ maxLen := by
  intro paras
  induction paras with
  | nil => intro st hp hc; exact ⟨hp, hc⟩
  | cons para rest ih =>
    intro st hp hc
    rw [List.foldl_cons]
    obtain ⟨hp2, hc2⟩ := paraStep_inv maxLen h st para hp hc
    exact ih (paraStep maxLen st para) hp2 hc2

theorem splitRaw_content (maxLen : Nat) (h : maxLen ≠ 0) (text : Str) :
    removeWS (splitRaw maxLen text).flatten = removeWS text := by
  unfold splitRaw
  have hfold := foldl_paraStep_content maxLen h (splitParas text) ([], [])
  simp only [List.flatten_nil, List.nil_append] at hfold
  rw [splitParas_content] at hfold
  set st := (splitParas text).foldl (paraStep maxLen) ([], []) with hst
  by_cases hstrip : pyStrip st.2 = []
  · simp only [hstrip, if_pos rfl, reduceIte]
    have h2 : removeWS st.2 = [] := by
      rw [← removeWS_pyStrip, hstrip]; rfl
    rw [removeWS_append, h2, List.append_nil] at hfold
    exact hfold
  · simp only [if_neg hstrip]
    rw [List.flatten_append, List.flatten_cons, List.flatten_nil, List.append_nil,
      removeWS_append, removeWS_pyStrip, ← removeWS_append]
    exact hfold

theorem splitRaw_length_le (maxLen : Nat) (h : maxLen ≠ 0) (text : Str) :
    ∀ p ∈ splitRaw maxLen text, p.length ≤ maxLen := by
  unfold splitRaw
  have hfold := foldl_paraStep_inv maxLen h (splitParas text) ([], []) (by simp) (by simp)
  set st := (splitParas text).foldl (paraStep maxLen) ([], []) with hst
  intro p hp
  by_cases hstrip : pyStrip st.2 = []
  · simp only [hstrip, if_pos rfl, reduceIte] at hp
    exact hfold.1 p hp
  · simp only [if_neg hstrip, List.mem_append, List.mem_singleton] at hp
    rcases hp with h1 | h1
    · exact hfold.1 p h1
    · subst h1
      exact Nat.le_trans (pyStrip_length_le _) hfold.2

theorem removeWS_take_of_nil (text : Str) (n : Nat) (h : removeWS text = []) :
    removeWS (text.take n) = [] := by
  rw [removeWS, List.filter_eq_nil_iff] at h ⊢
  intro a ha
  exact h a (List.mem_of_mem_take ha)

theorem split_parts_content (maxLen : Nat) (h : maxLen ≠ 0) (text : Str) :
    removeWS (split_parts maxLen text).flatten = removeWS text := by
  unfold split_parts
  by_cases h1 : text.length ≤ maxLen
  · simp [h1]
  · simp only [if_neg h1]
    by_cases h2 : splitRaw maxLen text = []
    · have := splitRaw_content maxLen h text
      rw [h2] at this
      simp only [List.flatten_nil] at this
      simp only [h2, if_pos rfl, reduceIte, List.flatten_cons, List.flatten_nil,
        List.append_nil]
      have hnil : removeWS text = [] := this.symm
      rw [removeWS_take_of_nil text maxLen hnil, hnil]
    · simp only [if_neg h2]
      exact splitRaw_content maxLen h text

theorem split_parts_length_le (maxLen : Nat) (h : maxLen ≠ 0) (text : Str)
    (htext : maxLen < text.length) :
    ∀ p ∈ split_parts maxLen text, p.length ≤ maxLen := by
  unfold split_parts
  simp only [if_neg (Nat.not_le.mpr htext)]
  intro p hp
  by_cases h2 : splitRaw maxLen text = []
  · simp only [h2, if_pos rfl, reduceIte, List.mem_singleton] at hp
    subst hp
    simp only [List.length_take]
    exact Nat.min_le_left _ _
  · simp only [if_neg h2] at hp
    exact splitRaw_length_le maxLen h text p hp

-- ── Symbolic evaluation helpers for concrete splitter scenarios ─────────────

theorem splitParas_no_newline (p : Str) (hmem : '\n' ∉ p) : splitParas p = [p] := by
  induction p with
  | nil => simp [splitParas]
  | cons c p ih =>
    have hc : c ≠ '\n' := fun h => hmem (h ▸ List.mem_cons_self c p)
    have hp : '\n' ∉ p := fun h => hmem (List.mem_cons_of_mem c h)
    cases p with
    | nil => simp [splitParas]
    | cons e p2 =>
      have h2 : ¬(c = '\n' ∧ e = '\n') := fun h3 => hc h3.1
      simp only [splitParas, if_neg h2, ih hp]

theorem splitParas_append_sep (p : Str) (hmem : '\n' ∉ p) :
    ∀ s : Str, splitParas (p ++ '\n' :: '\n' :: s) = p :: splitParas s := by
  induction p with
  | nil =>
    intro s
    simp [splitParas]
  | cons c p ih =>
    have hc : c ≠ '\n' := fun h => hmem (h ▸ List.mem_cons_self c p)
    have hp : '\n' ∉ p := fun h => hmem (List.mem_cons_of_mem c h)
    intro s
    cases p with
    | nil => simp [splitParas, hc]
    | cons e p2 =>
      have h2 : ¬(c = '\n' ∧ e = '\n') := fun h3 => hc h3.1
      have step := ih hp s
      rw [show (e :: p2) ++ '\n' :: '\n' :: s = e :: (p2 ++ '\n' :: '\n' :: s) from rfl]
        at step
      simp only [List.cons_append, splitParas, step]
      simp only [if_neg h2, List.append_eq]
      rw [step]

/-- The spec scenario input: five ~800-character paragraphs (3998 characters). -/
def scenarioPara : Str := List.replicate 798 'a'

def scenarioText : Str := joinSep ['\n', '\n'] (List.replicate 5 scenarioPara)

theorem scenarioPara_length : scenarioPara.length = 798 := by
  simp only [scenarioPara, List.length_replicate]

theorem scenarioPara_ne_nil : scenarioPara ≠ [] := by
  intro h
  have h2 := congrArg List.length h
  rw [scenarioPara_length] at h2
  simp at h2

theorem scenarioPara_no_newline : '\n' ∉ scenarioPara := by
  simp only [scenarioPara, List.mem_replicate]
  intro h
  exact absurd h.2 (by decide)

theorem dropWhile_replicate_a (n : Nat) :
    (List.replicate n 'a').dropWhile isPySpace = List.replicate n 'a' := by
  cases n with
  | zero => simp
  | succ n =>
    rw [List.replicate_succ, List.dropWhile_cons]
    simp [(by decide : isPySpace 'a' = false)]

theorem pyStrip_scenarioPara : pyStrip scenarioPara = scenarioPara := by
  simp only [pyStrip, scenarioPara, dropWhile_replicate_a, List.reverse_replicate]

theorem scenarioText_eq :
    scenarioText = scenarioPara ++ '\n' :: '\n' :: (scenarioPara ++ '\n' :: '\n' ::
      (scenarioPara ++ '\n' :: '\n' :: (scenarioPara ++ '\n' :: '\n' :: scenarioPara))) := by
  simp [scenarioText, joinSep, List.replicate_succ, List.append_assoc]

theorem splitParas_scenarioText :
    splitParas scenarioText = List.replicate 5 scenarioPara := by
  rw [scenarioText_eq, splitParas_append_sep _ scenarioPara_no_newline,
    splitParas_append_sep _ scenarioPara_no_newline,
    splitParas_append_sep _ scenarioPara_no_newline,
    splitParas_append_sep _ scenarioPara_no_newline,
    splitParas_no_newline _ scenarioPara_no_newline]
  simp [List.replicate_succ]

theorem paraStep_scenario_first :
    paraStep 1500 ([], []) scenarioPara = ([], scenarioPara) := by
  simp [paraStep, scenarioPara_length]

theorem paraStep_scenario_next (parts : List Str) :
    paraStep 1500 (parts, scenarioPara) scenarioPara
      = (parts ++ [scenarioPara], scenarioPara) := by
  simp [paraStep, scenarioPara_ne_nil, scenarioPara_length, pyStrip_scenarioPara,
    List.length_append]

theorem scenario_fold :
    (List.replicate 5 scenarioPara).foldl (paraStep 1500) ([], [])
      = ([scenarioPara, scenarioPara, scenarioPara, scenarioPara], scenarioPara) := by
  simp only [List.replicate_succ, List.replicate_zero, List.foldl_cons, List.foldl_nil,
    paraStep_scenario_first, paraStep_scenario_next]
  rfl

theorem splitRaw_scenario : splitRaw 1500 scenarioText = List.replicate 5 scenarioPara := by
  unfold splitRaw
  rw [splitParas_scenarioText, scenario_fold]
  simp [pyStrip_scenarioPara, scenarioPara_ne_nil, List.replicate_succ]

theorem scenarioText_length : scenarioText.length = 3998 := by
  rw [scenarioText_eq]
  simp [List.length_append, scenarioPara_length]

theorem split_parts_scenario :
    split_parts 1500 scenarioText = List.replicate 5 scenarioPara := by
  unfold split_parts
  rw [splitRaw_scenario]
  simp [scenarioText_length, List.replicate_succ]

theorem split_for_whatsapp_scenario :
    split_for_whatsapp 1500 scenarioText =
      [chunkTag 1 5 ++ scenarioPara, chunkTag 2 5 ++ scenarioPara,
        chunkTag 3 5 ++ scenarioPara, chunkTag 4 5 ++ scenarioPara,
        chunkTag 5 5 ++ scenarioPara] := by
  unfold split_for_whatsapp
  rw [split_parts_scenario]
  simp [List.replicate_succ, List.enum, List.enumFrom]

-- ── C5 / C6: output segmenter claims ────────────────────────────────────────

def aChunk : Str := List.replicate 751 'a'

def bChunk : Str := List.replicate 751 'b'

def roundtripText : Str := aChunk ++ '\n' :: '\n' :: bChunk

/-- C5 counterexample: for the 1504-character input `aChunk ++ "\n\n" ++ bChunk`
the segmenter returns two prefixed chunks whose de-prefixed bodies concatenate
to `aChunk ++ bChunk`, which is not the original text (the paragraph separator
at the chunk boundary is dropped); this holds whether or not the newline of
the `"(i/N)\n"` indicator is treated as part of the prefix. -/
theorem c5_counterexample :
    split_for_whatsapp 1500 roundtripText
      = [chunkTag 1 2 ++ aChunk, chunkTag 2 2 ++ bChunk] ∧
    aChunk ++ bChunk ≠ roundtripText ∧
    ('\n' :: aChunk) ++ '\n' :: bChunk ≠ roundtripText := by decide

/-- C5 (amended): concatenating the de-prefixed chunk bodies of
`split_for_whatsapp` reproduces the original text up to whitespace — the
paragraph/line separators dropped at chunk boundaries and the
stripped chunk edges are whitespace characters, and no other character is
lost or reordered; an input that already fits the limit is returned verbatim
as one unprefixed chunk, and multi-chunk outputs are exactly the bodies with
`"(i/N)\n"` indicators prepended. -/
theorem c5_roundtrip_modulo_whitespace (maxLen : Nat) (text : Str) (h : 0 < maxLen) :
    removeWS (split_parts maxLen text).flatten = removeWS text ∧
    (text.length ≤ maxLen → split_for_whatsapp maxLen text = [text]) ∧
    (1 < (split_parts maxLen text).length →
      split_for_whatsapp maxLen text
        = (split_parts maxLen text).enum.map
            fun ip => chunkTag (ip.1 + 1) (split_parts maxLen text).length ++ ip.2) := by
  refine ⟨split_parts_content maxLen (Nat.pos_iff_ne_zero.mp h) text, ?_, ?_⟩
  · intro hle
    simp [split_for_whatsapp, split_parts, hle]
  · intro hgt
    simp only [split_for_whatsapp, if_pos hgt]

/-- C5 witness: the amended round-trip property evaluated at the concrete
input `"aa\n\nbb"` with limit 5. -/
theorem c5_witness :
    removeWS (split_parts 5 (("aa\n\nbb").toList)).flatten = removeWS (("aa\n\nbb").toList) ∧
    ((("aa\n\nbb").toList).length ≤ 5 →
      split_for_whatsapp 5 (("aa\n\nbb").toList) = [("aa\n\nbb").toList]) ∧
    (1 < (split_parts 5 (("aa\n\nbb").toList)).length →
      split_for_whatsapp 5 (("aa\n\nbb").toList)
        = (split_parts 5 (("aa\n\nbb").toList)).enum.map
            fun ip => chunkTag (ip.1 + 1) (split_parts 5 (("aa\n\nbb").toList)).length
              ++ ip.2) :=
  c5_roundtrip_modulo_whitespace 5 (("aa\n\nbb").toList) (by decide)

def overflowText : Str := ("aaaaa\n\nbbbbb").toList

/-- C6 counterexample: with limit 5 and input `"aaaaa\n\nbbbbb"` the segmenter
returns chunks of length 11 — the `"(i/N)"` indicator is prepended after the
bodies were sized to the limit, so a prefixed chunk exceeds the limit. -/
theorem c6_counterexample :
    (split_for_whatsapp 5 overflowText).any (fun c => 5 < c.length) = true ∧
    split_for_whatsapp 5 overflowText
      = [("(1/2)\naaaaa").toList, ("(2/2)\nbbbbb").toList] := by decide

/-- C6 (amended): every chunk body (the chunk with its `"(i/N)\n"` indicator
removed) has length at most the limit; prefixed chunks may exceed the limit
by the indicator length.  The concrete scenario: a 3998-character input with
paragraph breaks every 798 characters yields five chunks prefixed (1/5)…(5/5),
each at most 1500 characters including the indicator. -/
theorem c6_chunk_length_bound (maxLen : Nat) (text : Str) (h : 0 < maxLen) :
    (∀ body ∈ split_parts maxLen text, body.length ≤ maxLen) ∧
    (1 < (split_parts maxLen text).length →
      split_for_whatsapp maxLen text
        = (split_parts maxLen text).enum.map
            fun ip => chunkTag (ip.1 + 1) (split_parts maxLen text).length ++ ip.2) ∧
    scenarioText.length = 3998 ∧
    split_for_whatsapp 1500 scenarioText =
      [chunkTag 1 5 ++ scenarioPara, chunkTag 2 5 ++ scenarioPara,
        chunkTag 3 5 ++ scenarioPara, chunkTag 4 5 ++ scenarioPara,
        chunkTag 5 5 ++ scenarioPara] ∧
    (∀ chunk ∈ split_for_whatsapp 1500 scenarioText, chunk.length ≤ 1500) := by
  refine ⟨?_, ?_, scenarioText_length, split_for_whatsapp_scenario, ?_⟩
  · intro body hb
    by_cases h1 : text.length ≤ maxLen
    · have h2 : split_parts maxLen text = [text] := by simp [split_parts, h1]
      rw [h2] at hb
      simp only [List.mem_singleton] at hb
      rw [hb]
      exact h1
    · exact split_parts_length_le maxLen (Nat.pos_iff_ne_zero.mp h) text
        (Nat.lt_of_not_le h1) body hb
  · intro hgt
    simp only [split_for_whatsapp, if_pos hgt]
  · intro chunk hc
    rw [split_for_whatsapp_scenario] at hc
    simp only [List.mem_cons, List.not_mem_nil, or_false] at hc
    rcases hc with hc | hc | hc | hc | hc <;> rw [hc] <;>
      simp [List.length_append, scenarioPara_length,
        (by decide : (chunkTag 1 5).length = 6), (by decide : (chunkTag 2 5).length = 6),
        (by decide : (chunkTag 3 5).length = 6), (by decide : (chunkTag 4 5).length = 6),
        (by decide : (chunkTag 5 5).length = 6)]

/-- C6 witness: the amended bound evaluated at limit 1500 on the scenario
input itself. -/
theorem c6_witness :
    (∀ body ∈ split_parts 1500 scenarioText, body.length ≤ 1500) ∧
    (1 < (split_parts 1500 scenarioText).length →
      split_for_whatsapp 1500 scenarioText
        = (split_parts 1500 scenarioText).enum.map
            fun ip => chunkTag (ip.1 + 1) (split_parts 1500 scenarioText).length ++ ip.2) ∧
    scenarioText.length = 3998 ∧
    split_for_whatsapp 1500 scenarioText =
      [chunkTag 1 5 ++ scenarioPara, chunkTag 2 5 ++ scenarioPara,
        chunkTag 3 5 ++ scenarioPara, chunkTag 4 5 ++ scenarioPara,
        chunkTag 5 5 ++ scenarioPara] ∧
    (∀ chunk ∈ split_for_whatsapp 1500 scenarioText, chunk.length ≤ 1500) :=
  c6_chunk_length_bound 1500 scenarioText (by decide)

-- ── Data model, from src/app/schemas.py ─────────────────────────────────────

inductive SkinType
  | dry | oily | combination | normal | sensitive
deriving DecidableEq

inductive SunExposure
  | minimal | moderate | high
deriving DecidableEq

inductive BudgetRange
  | budget | mid_range | high_end
deriving DecidableEq

inductive KnowledgeLevel
  | beginner | intermediate | advanced
deriving DecidableEq

inductive ConversationPhase
  | interviewing | reviewing | recommending | complete
deriving DecidableEq

structure HealthInfo where
  is_pregnant : Option Bool := none
  is_nursing : Option Bool := none
  planning_pregnancy : Option Bool := none
  medications : List Str := []
  allergies : List Str := []
  sensitivities : List Str := []
deriving DecidableEq

structure RoutineStep where
  order : Int
  step_name : Str
  ingredient_category : Str
  why : Str
  usage_tip : Str := []
  time_expectation : Str := []
deriving DecidableEq

structure SkincareRoutine where
  narrative_summary : Str
  morning : List RoutineStep := []
  evening : List RoutineStep := []
  key_notes : List Str := []
  ingredients_to_avoid : List Str := []
deriving DecidableEq

/-- `UserProfile` from `src/app/schemas.py`.  The final two fields are not in
that file but are read and written by `src/app/services/orchestrator.py`
(`new_profile.interview_complete = True`, `profile.last_routine = ...`), i.e.
they belong to the profile schema of the era of that service module; they are
included so the service embeds faithfully. -/
structure UserProfile where
  skin_type : Option SkinType := none
  concerns : List Str := []
  health : HealthInfo := {}
  sun_exposure : Option SunExposure := none
  budget : Option BudgetRange := none
  preferences : List Str := []
  current_routine_morning : Option Str := none
  current_routine_evening : Option Str := none
  knowledge_level : Option KnowledgeLevel := none
  notes : Str := []
  image_analysis : Option Str := none
  age_verified : Bool := false
  language : Str := ("english").toList
  health_screened : Bool := false
  turns_since_sufficient : Nat := 0
  interview_complete : Bool := false
  last_routine : Option SkincareRoutine := none
deriving DecidableEq

/-- `ProfileUpdates` from `src/app/schemas.py` — incremental profile updates;
`none` means no change for that field. -/
structure ProfileUpdates where
  skin_type : Option SkinType := none
  concerns : Option (List Str) := none
  age_verified : Option Bool := none
  is_pregnant : Option Bool := none
  is_nursing : Option Bool := none
  planning_pregnancy : Option Bool := none
  medications : Option (List Str) := none
  allergies : Option (List Str) := none
  sensitivities : Option (List Str) := none
  sun_exposure : Option SunExposure := none
  budget : Option BudgetRange := none
  preferences : Option (List Str) := none
  current_routine_morning : Option Str := none
  current_routine_evening : Option Str := none
  knowledge_level : Option KnowledgeLevel := none
  notes : Option Str := none
  image_analysis : Option Str := none
  health_screened : Option Bool := none
deriving DecidableEq

-- ── GlowBotService, from src/app/services/orchestrator.py ───────────────────

/-- Hebrew detection by Unicode range U+0590 – U+05FF. -/
def isHebrewChar (c : Char) : Bool := 0x590 ≤ c.toNat && c.toNat ≤ 0x5ff

/-- `_detect_language`: return "hebrew" at the first Hebrew-range character,
"english" after scanning the whole text. -/
def _detect_language : Str → Str
  | [] => ("english").toList
  | c :: rest => if isHebrewChar c then ("hebrew").toList else _detect_language rest

/-- `_is_profile_sufficient` — the minimum-data check of the checked-in
service: age verified, a skin type, a non-empty concern list, and a recorded
`is_pregnant` value. -/
def _is_profile_sufficient (profile : UserProfile) : Bool :=
  profile.age_verified && profile.skin_type.isSome && !profile.concerns.isEmpty &&
    profile.health.is_pregnant.isSome

/-- Turn-history entry: a pydantic-ai `ModelRequest` / `ModelResponse`,
opaque except for its `kind` discriminant. -/
inductive Turn
  | request (payload : Str)
  | response (payload : Str)
deriving DecidableEq

/-- A stored JSON history entry: a dict (with optional `kind` field and a
payload that may fail re-validation) or a non-dict value. -/
inductive RawEntry
  | obj (kind : Option Str) (payload : Option Str)
  | prim (s : Str)
deriving DecidableEq

/-- `_serialize_history`: each message object dumps to a JSON dict carrying
its `kind` discriminant and payload. -/
def _serialize_history (history : List Turn) : List RawEntry :=
  history.map fun msg =>
    match msg with
    | .request p => .obj (some (("request").toList)) (some p)
    | .response p => .obj (some (("response").toList)) (some p)

/-- `_deserialize_history`: skip non-dict entries, unknown discriminants and
entries that fail re-validation; never fail. -/
def _deserialize_history (raw : List RawEntry) : List Turn :=
  raw.filterMap fun item =>
    match item with
    | .prim _ => none
    | .obj none _ => none
    | .obj (some k) payload =>
      if k = ("request").toList then payload.map Turn.request
      else if k = ("response").toList then payload.map Turn.response
      else none

/-- Python `str(int)` for a routine step order. -/
def intChars (i : Int) : Str :=
  if i < 0 then '-' :: Nat.toDigits 10 i.natAbs else Nat.toDigits 10 i.natAbs

/-- `_format_routine_short` — bullet-point summary. -/
def _format_routine_short (routine : SkincareRoutine) : Str :=
  let lines : List Str :=
    [routine.narrative_summary, []]
    ++ (if routine.morning ≠ [] then
          [("*☀️ Morning*").toList]
          ++ routine.morning.map (fun step =>
              ("  ").toList ++ intChars step.order ++ (". *").toList ++ step.step_name
                ++ ("* — ").toList ++ step.why)
          ++ [[]]
        else [])
    ++ (if routine.evening ≠ [] then
          [("*🌙 Evening*").toList]
          ++ routine.evening.map (fun step =>
              ("  ").toList ++ intChars step.order ++ (". *").toList ++ step.step_name
                ++ ("* — ").toList ++ step.why)
          ++ [[]]
        else [])
    ++ (if routine.ingredients_to_avoid ≠ [] then
          [("*🚫 Avoid:* ").toList ++ joinSep ((", ").toList) routine.ingredients_to_avoid, []]
        else [])
  joinSep ['\n'] lines

/-- Lines produced for one step of the detailed routine view. -/
def _detail_step_lines (step : RoutineStep) : List Str :=
  [('*' :: intChars step.order ++ (". ").toList ++ step.step_name ++ ['*']),
    (("  _").toList ++ step.ingredient_category ++ ['_']),
    (("  ").toList ++ step.why)]
  ++ (if step.usage_tip ≠ [] then [("  💡 ").toList ++ step.usage_tip] else [])
  ++ (if step.time_expectation ≠ [] then [("  ⏱ ").toList ++ step.time_expectation] else [])
  ++ [[]]

/-- `_format_routine_detailed` — full routine with tips and timelines. -/
def _format_routine_detailed (routine : SkincareRoutine) : Str :=
  let lines : List Str :=
    (if routine.morning ≠ [] then
      [("*☀️ Morning Routine — Detailed*").toList, []]
        ++ (routine.morning.map _detail_step_lines).flatten
     else [])
    ++ (if routine.evening ≠ [] then
      [("*🌙 Evening Routine — Detailed*").toList, []]
        ++ (routine.evening.map _detail_step_lines).flatten
     else [])
    ++ (if routine.key_notes ≠ [] then
      [("*📝 Key Notes*").toList]
        ++ routine.key_notes.map (fun note => ("  • ").toList ++ note)
     else [])
  joinSep ['\n'] lines

/-- Result of `interview_agent.run` as consumed by the service
(`result.output.response`, `result.output.profile`,
`result.output.interview_complete`, `result.new_messages()`).  The
`InterviewResult` schema the service imports is absent from the checked-in
`schemas.py`; its fields are reconstructed from these call sites. -/
structure InterviewResult where
  response : Str
  profile : UserProfile
  interview_complete : Bool
  new_messages : List Turn := []
deriving DecidableEq

/-- The outcome of one generative-delegate call of a turn: either the value
the agent returned or a raised exception (with its message). -/
structure TurnDelegates where
  interview : Except Str InterviewResult
  planner : Except Str SkincareRoutine

abbrev TurnOutcome := List Str × UserProfile × ConversationPhase × List Turn

def confirm_signals : List Str :=
  [("yes").toList, ("yeah").toList, ("yep").toList, ("correct").toList,
    ("looks good").toList, ("that\x27s right").toList,
    ("confirmed").toList, ("confirm").toList, ("ok").toList, ("okay").toList,
    ("perfect").toList, ("great").toList,
    ("כן").toList, ("נכון").toList, ("מאשר").toList, ("מאשרת").toList,
    ("בסדר").toList, ("מצוין").toList]

def restart_signals : List Str :=
  [("start over").toList, ("restart").toList, ("new consultation").toList,
    ("reset").toList, ("מחדש").toList, ("התחל מחדש").toList]

def detail_signals : List Str :=
  [("yes").toList, ("yeah").toList, ("yep").toList, ("detailed").toList,
    ("details").toList, ("more").toList, ("tips").toList,
    ("כן").toList, ("פירוט").toList, ("עוד").toList]

def apology_en : Str :=
  ("I\x27m sorry, something went wrong. Could you try again?").toList

def ack_he : Str := ("מעולה! אני מכינה לך עכשיו תוכנית טיפוח מותאמת אישית... ⏳").toList

def ack_en : Str :=
  ("Wonderful! Let me create your personalized skincare routine now... ⏳").toList

def cta_he : Str := ("רוצה את הגרסה המפורטת עם טיפים ליישום? פשוט תגידי *כן* 😊").toList

def cta_en : Str :=
  ("Want the detailed version with application tips? Just say *yes* 😊").toList

def restart_msg_he : Str := ("בואי נתחיל מחדש! ספרי לי קצת על העור שלך 😊").toList

def restart_msg_en : Str := ("Let\x27s start fresh! Tell me a bit about your skin 😊").toList

/-- `_handle_interview`: run the interview agent, preserve the detected
language, and move to Reviewing as soon as the agent reports completion and
the sufficiency check passes.  (A `media_url` only changes the prompt sent to
the delegate, so it does not appear in the embedding.) -/
def _handle_interview (profile : UserProfile) (history : List Turn)
    (result : InterviewResult) : TurnOutcome :=
  let new_profile := { result.profile with language := profile.language }
  if result.interview_complete && _is_profile_sufficient new_profile then
    (split_for_whatsapp 1500 result.response,
      { new_profile with interview_complete := true },
      ConversationPhase.reviewing, history ++ result.new_messages)
  else
    (split_for_whatsapp 1500 result.response, new_profile,
      ConversationPhase.interviewing, history ++ result.new_messages)

/-- `_handle_recommendation`: generate the routine plan, store it on the
profile, and finish with a localized call to action. -/
def _handle_recommendation (profile : UserProfile) (routine : SkincareRoutine) :
    List Str × UserProfile × ConversationPhase :=
  let profile2 := { profile with last_routine := some routine }
  let cta := if profile.language = ("hebrew").toList then cta_he else cta_en
  (split_for_whatsapp 1500 (_format_routine_short routine) ++ [cta], profile2,
    ConversationPhase.complete)

/-- `_handle_review`: a confirmation utterance triggers the recommendation
immediately; anything else is treated as a correction and goes back to the
interview agent. -/
def _handle_review (profile : UserProfile) (message : Str) (history : List Turn)
    (d : TurnDelegates) : Except Str TurnOutcome :=
  let lower := pyStrip (pyLower message)
  if confirm_signals.any (fun sig => containsSub sig lower) then
    match d.planner with
    | .error e => .error e
    | .ok routine =>
      let ack := if profile.language = ("hebrew").toList then ack_he else ack_en
      let r := _handle_recommendation profile routine
      .ok (ack :: r.1, r.2.1, r.2.2, history)
  else
    match d.interview with
    | .error e => .error e
    | .ok result =>
      let new_profile := { result.profile with language := profile.language }
      if result.interview_complete && _is_profile_sufficient new_profile then
        .ok (split_for_whatsapp 1500 result.response,
          { new_profile with interview_complete := true },
          ConversationPhase.reviewing, history ++ result.new_messages)
      else
        .ok (split_for_whatsapp 1500 result.response, new_profile,
          ConversationPhase.reviewing, history ++ result.new_messages)

/-- `_handle_complete`: restart signals reset the conversation, detail
signals serve the stored routine without a delegate call, anything else is
free-form Q&A through the interview agent. -/
def _handle_complete (profile : UserProfile) (message : Str) (history : List Turn)
    (d : TurnDelegates) : Except Str TurnOutcome :=
  let lower := pyStrip (pyLower message)
  let qa : Except Str TurnOutcome :=
    match d.interview with
    | .error e => .error e
    | .ok result =>
      .ok (split_for_whatsapp 1500 result.response, profile,
        ConversationPhase.complete, history ++ result.new_messages)
  if restart_signals.any (fun sig => containsSub sig lower) then
    let new_profile : UserProfile := { language := profile.language }
    let msg := if profile.language = ("hebrew").toList then restart_msg_he else restart_msg_en
    .ok ([msg], new_profile, ConversationPhase.interviewing, [])
  else if detail_signals.any (fun sig => containsSub sig lower)
      && profile.last_routine.isSome then
    match profile.last_routine with
    | some routine =>
      .ok (split_for_whatsapp 1500 (_format_routine_detailed routine),
        { profile with last_routine := none }, ConversationPhase.complete, history)
    | none => qa
  else qa

/-- The per-identity persisted conversation record (`User.profile_json`,
`User.conversation_phase`, `User.message_history_json`). -/
structure StoredUser where
  profile : UserProfile := {}
  phase : ConversationPhase := ConversationPhase.interviewing
  history : List Turn := []
deriving DecidableEq

def MAX_HISTORY_PAIRS : Nat := 20

/-- `message_history[-(MAX_HISTORY_PAIRS * 2):]`. -/
def trimHistory (h : List Turn) : List Turn := h.drop (h.length - MAX_HISTORY_PAIRS * 2)

/-- `GlowBotService.handle_message`: detect language, route by phase, persist
the new state; a delegate exception anywhere in the turn is caught and the
stored state is left untouched while a fixed apology is returned. -/
def handle_message (stored : StoredUser) (message : Str) (d : TurnDelegates) :
    StoredUser × List Str :=
  let detected := _detect_language message
  let profile :=
    if detected ≠ [] then { stored.profile with language := detected } else stored.profile
  let routed : Except Str TurnOutcome :=
    match stored.phase with
    | ConversationPhase.interviewing =>
      match d.interview with
      | .error e => .error e
      | .ok result => .ok (_handle_interview profile stored.history result)
    | ConversationPhase.reviewing => _handle_review profile message stored.history d
    | ConversationPhase.recommending =>
      match d.planner with
      | .error e => .error e
      | .ok routine =>
        let r := _handle_recommendation profile routine
        .ok (r.1, r.2.1, r.2.2, stored.history)
    | ConversationPhase.complete => _handle_complete profile message stored.history d
  match routed with
  | .error _ => (stored, [apology_en])
  | .ok (responses, newProfile, newPhase, newHistory) =>
    ({ profile := newProfile, phase := newPhase, history := trimHistory newHistory },
      responses)

/-- Modelled from the spec: the Profile Merge Engine (`_apply_profile_updates`
of the hybrid orchestrator service) is not present under `src/` — only its
unit tests (`src/tests/test_orchestrator.py`) and the `ProfileUpdates`
schema declaration are.  Per spec §4.4: top-level fields are overwritten
only when non-null in the updates record, the nested health sub-record is
merged field-by-field under the same rule, and an absent updates record
leaves the profile unchanged. -/
def _apply_profile_updates (profile : UserProfile) (updates : Option ProfileUpdates) :
    UserProfile :=
  match updates with
  | none => profile
  | some u =>
    { profile with
      skin_type := u.skin_type.or profile.skin_type
      concerns := u.concerns.getD profile.concerns
      age_verified := u.age_verified.getD profile.age_verified
      health :=
        { profile.health with
          is_pregnant := u.is_pregnant.or profile.health.is_pregnant
          is_nursing := u.is_nursing.or profile.health.is_nursing
          planning_pregnancy := u.planning_pregnancy.or profile.health.planning_pregnancy
          medications := u.medications.getD profile.health.medications
          allergies := u.allergies.getD profile.health.allergies
          sensitivities := u.sensitivities.getD profile.health.sensitivities }
      sun_exposure := u.sun_exposure.or profile.sun_exposure
      budget := u.budget.or profile.budget
      preferences := u.preferences.getD profile.preferences
      current_routine_morning := u.current_routine_morning.or profile.current_routine_morning
      current_routine_evening := u.current_routine_evening.or profile.current_routine_evening
      knowledge_level := u.knowledge_level.or profile.knowledge_level
      notes := u.notes.getD profile.notes
      image_analysis := u.image_analysis.or profile.image_analysis
      health_screened := u.health_screened.getD profile.health_screened }

-- ── Message intake buffer, from src/app/main.py ─────────────────────────────

structure _PendingMessage where
  text : Str
  media_url : Option Str := none
  image_data : Option Str := none
  image_content_type : Str := ("image/jpeg").toList
  profile_name : Option Str := none
deriving DecidableEq

structure CombinedTurn where
  text : Str
  media_url : Option Str
  image_data : Option Str
  image_content_type : Str
  profile_name : Option Str
deriving DecidableEq

/-- The pure core of `_process_buffer`: the single combined `handle_message`
call made for one identity's buffered fragments (`none` when the buffer is
empty and no call happens). -/
def _process_buffer (messages : List _PendingMessage) : Option CombinedTurn :=
  if messages = [] then none
  else
    let image_msg := messages.find? fun m => m.image_data.isSome
    some
      { text := joinSep ('\n' :: '\n' :: [])
          ((messages.filter fun m => m.text ≠ []).map fun m => m.text)
        media_url := image_msg.bind fun m => m.media_url
        image_data := image_msg.bind fun m => m.image_data
        image_content_type :=
          match image_msg with
          | some m => m.image_content_type
          | none => ("image/jpeg").toList
        profile_name := (messages.find? fun m => m.profile_name.isSome).bind
          fun m => m.profile_name }

-- ── C1: sufficiency predicate ───────────────────────────────────────────────

/-- A profile filling only the four old minimum categories. -/
def fourFieldProfile : UserProfile :=
  { age_verified := true
    skin_type := some SkinType.oily
    concerns := [("acne").toList]
    health := { is_pregnant := some false } }

/-- C1: the checked-in `_is_profile_sufficient` accepts a profile in which
the health screening, sun exposure, budget and baseline-routine categories
are all unset, contradicting the claim (and the repository's own tests in
`src/tests/test_orchestrator.py`, which assert such a profile is not
sufficient); the predicate itself is a pure function of the profile. -/
theorem c1_sufficiency_ignores_required_categories :
    _is_profile_sufficient fourFieldProfile = true ∧
    fourFieldProfile.sun_exposure = none ∧
    fourFieldProfile.budget = none ∧
    fourFieldProfile.health_screened = false ∧
    fourFieldProfile.current_routine_morning = none ∧
    fourFieldProfile.current_routine_evening = none ∧
    fourFieldProfile.health.is_nursing = none := by decide

-- ── C2: Interviewing→Reviewing transition timing ────────────────────────────

/-- A first-turn delegate result that reports completion with a profile that
passes the checked-in sufficiency test. -/
def turn1Result : InterviewResult :=
  { response := ("Here is your summary — is it accurate?").toList
    profile := fourFieldProfile
    interview_complete := true
    new_messages := [Turn.request (("u1").toList), Turn.response (("a1").toList)] }

/-- C2: the checked-in `_handle_interview` transitions Interviewing→Reviewing
on the very first turn on which the delegate reports completion and the
sufficiency check passes — `turns_since_sufficient` is never read,
incremented or reset by the service (it stays 0), so there is no K = 2
counter gate and no force flag. -/
theorem c2_transition_fires_on_first_turn :
    (_handle_interview {} [] turn1Result).2.2.1 = ConversationPhase.reviewing ∧
    (_handle_interview {} [] turn1Result).2.1.turns_since_sufficient = 0 ∧
    ({} : UserProfile).turns_since_sufficient = 0 := by decide

-- ── C3: profile merge non-destructiveness (spec-modelled) ───────────────────

theorem or_ne_none {α : Type} (a b : Option α) (h : b ≠ none) : a.or b ≠ none := by
  cases a <;> simp [Option.or, h]

/-- C3: the merge is non-destructive.  An absent updates record returns the
profile unchanged; every field that is `none` in the updates keeps its
previous value, including each field of the nested health sub-record; and
applying updates never clears a filled Option-valued field to `none`, while
the fields outside the updates contract (language, counters, stored routine)
are never touched. -/
theorem c3_merge_non_destructive :
    (∀ p : UserProfile, _apply_profile_updates p none = p) ∧
    (∀ (p : UserProfile) (u : ProfileUpdates),
      (u.skin_type = none → (_apply_profile_updates p (some u)).skin_type = p.skin_type) ∧
      (u.concerns = none → (_apply_profile_updates p (some u)).concerns = p.concerns) ∧
      (u.age_verified = none →
        (_apply_profile_updates p (some u)).age_verified = p.age_verified) ∧
      (u.is_pregnant = none →
        (_apply_profile_updates p (some u)).health.is_pregnant = p.health.is_pregnant) ∧
      (u.is_nursing = none →
        (_apply_profile_updates p (some u)).health.is_nursing = p.health.is_nursing) ∧
      (u.planning_pregnancy = none →
        (_apply_profile_updates p (some u)).health.planning_pregnancy
          = p.health.planning_pregnancy) ∧
      (u.medications = none →
        (_apply_profile_updates p (some u)).health.medications = p.health.medications) ∧
      (u.allergies = none →
        (_apply_profile_updates p (some u)).health.allergies = p.health.allergies) ∧
      (u.sensitivities = none →
        (_apply_profile_updates p (some u)).health.sensitivities
          = p.health.sensitivities) ∧
      (u.sun_exposure = none →
        (_apply_profile_updates p (some u)).sun_exposure = p.sun_exposure) ∧
      (u.budget = none → (_apply_profile_updates p (some u)).budget = p.budget) ∧
      (u.preferences = none →
        (_apply_profile_updates p (some u)).preferences = p.preferences) ∧
      (u.current_routine_morning = none →
        (_apply_profile_updates p (some u)).current_routine_morning
          = p.current_routine_morning) ∧
      (u.current_routine_evening = none →
        (_apply_profile_updates p (some u)).current_routine_evening
          = p.current_routine_evening) ∧
      (u.knowledge_level = none →
        (_apply_profile_updates p (some u)).knowledge_level = p.knowledge_level) ∧
      (u.notes = none → (_apply_profile_updates p (some u)).notes = p.notes) ∧
      (u.image_analysis = none →
        (_apply_profile_updates p (some u)).image_analysis = p.image_analysis) ∧
      (u.health_screened = none →
        (_apply_profile_updates p (some u)).health_screened = p.health_screened)) ∧
    (∀ (p : UserProfile) (u : ProfileUpdates),
      (p.skin_type ≠ none → (_apply_profile_updates p (some u)).skin_type ≠ none) ∧
      (p.sun_exposure ≠ none → (_apply_profile_updates p (some u)).sun_exposure ≠ none) ∧
      (p.budget ≠ none → (_apply_profile_updates p (some u)).budget ≠ none) ∧
      (p.current_routine_morning ≠ none →
        (_apply_profile_updates p (some u)).current_routine_morning ≠ none) ∧
      (p.current_routine_evening ≠ none →
        (_apply_profile_updates p (some u)).current_routine_evening ≠ none) ∧
      (p.knowledge_level ≠ none →
        (_apply_profile_updates p (some u)).knowledge_level ≠ none) ∧
      (p.image_analysis ≠ none →
        (_apply_profile_updates p (some u)).image_analysis ≠ none) ∧
      (p.health.is_pregnant ≠ none →
        (_apply_profile_updates p (some u)).health.is_pregnant ≠ none) ∧
      (p.health.is_nursing ≠ none →
        (_apply_profile_updates p (some u)).health.is_nursing ≠ none) ∧
      (p.health.planning_pregnancy ≠ none →
        (_apply_profile_updates p (some u)).health.planning_pregnancy ≠ none) ∧
      (_apply_profile_updates p (some u)).language = p.language ∧
      (_apply_profile_updates p (some u)).turns_since_sufficient
        = p.turns_since_sufficient ∧
      (_apply_profile_updates p (some u)).interview_complete = p.interview_complete ∧
      (_apply_profile_updates p (some u)).last_routine = p.last_routine) := by
  refine ⟨fun p => rfl, fun p u => ?_, fun p u => ?_⟩
  · repeat' apply And.intro
    all_goals intro h
    all_goals simp [_apply_profile_updates, h, Option.or]
  · refine ⟨?_, ?_, ?_, ?_, ?_, ?_, ?_, ?_, ?_, ?_, rfl, rfl, rfl, rfl⟩
    all_goals intro h
    all_goals exact or_ne_none _ _ h

-- ── C4: restart handling ────────────────────────────────────────────────────

/-- A delegate result for an ordinary conversational turn. -/
def qaResult : InterviewResult :=
  { response := ("Happy to help!").toList
    profile := fourFieldProfile
    interview_complete := false
    new_messages := [Turn.request (("u2").toList), Turn.response (("a2").toList)] }

def sampleRoutine : SkincareRoutine :=
  { narrative_summary := ("A routine for you.").toList }

def okDelegates : TurnDelegates :=
  { interview := .ok qaResult, planner := .ok sampleRoutine }

def storedInterviewing : StoredUser :=
  { profile := fourFieldProfile
    phase := ConversationPhase.interviewing
    history := [Turn.request (("h").toList)] }

/-- C4: restart is handled only in the Complete phase.  From Interviewing the
message "restart" is forwarded to the delegate: the returned state keeps the
delegate profile (concerns still filled) and a non-empty history instead of
being reset.  From Complete the same message does reset profile (keeping
language), phase and history — and the match is a plain substring test, so
"i love presets" also triggers the reset ("reset" ⊆ "presets"). -/
theorem c4_restart_only_in_complete :
    (handle_message storedInterviewing (("restart").toList) okDelegates).1.profile.concerns
      = [("acne").toList] ∧
    (handle_message storedInterviewing (("restart").toList) okDelegates).1.phase
      = ConversationPhase.interviewing ∧
    (handle_message storedInterviewing (("restart").toList) okDelegates).1.history ≠ [] ∧
    (handle_message { storedInterviewing with phase := ConversationPhase.complete }
        (("restart").toList) okDelegates)
      = ({ profile := { language := ("english").toList },
            phase := ConversationPhase.interviewing, history := [] }, [restart_msg_en]) ∧
    (handle_message { storedInterviewing with phase := ConversationPhase.complete }
        (("i love presets").toList) okDelegates).1.profile
      = { language := ("english").toList } := by decide

-- ── C7: history codec ───────────────────────────────────────────────────────

/-- A stored entry the deserializer must skip: a non-dict value, a dict
without a discriminant, or a dict with an unknown discriminant. -/
def isUnknownEntry (e : RawEntry) : Bool :=
  match e with
  | .prim _ => true
  | .obj none _ => true
  | .obj (some k) _ =>
    !(k = ("request").toList) && !(k = ("response").toList)

/-- C7: deserializing a serialized well-formed turn sequence reconstructs it
exactly (hence same length, order and discriminants), and any entry that is
not a record or has an unknown discriminant is skipped — deserialization is a
total function and never fails. -/
theorem c7_history_codec_roundtrip :
    (∀ turns : List Turn, _deserialize_history (_serialize_history turns) = turns) ∧
    (∀ (e : RawEntry) (raw : List RawEntry), isUnknownEntry e = true →
      _deserialize_history (e :: raw) = _deserialize_history raw) := by
  constructor
  · intro turns
    induction turns with
    | nil => rfl
    | cons t rest ih =>
      cases t with
      | request p =>
        show Turn.request p :: _deserialize_history (_serialize_history rest)
          = Turn.request p :: rest
        rw [ih]
      | response p =>
        show Turn.response p :: _deserialize_history (_serialize_history rest)
          = Turn.response p :: rest
        rw [ih]
  · intro e raw h
    match e with
    | .prim s => simp [_deserialize_history, List.filterMap_cons]
    | .obj none payload => simp [_deserialize_history, List.filterMap_cons]
    | .obj (some k) payload =>
      simp only [isUnknownEntry, Bool.and_eq_true, Bool.not_eq_true', decide_eq_false_iff_not]
        at h
      simp only [String.toList] at h
      simp [_deserialize_history, List.filterMap_cons, h.1, h.2]

/-- C7 witness: the codec round-trip and junk tolerance evaluated on a
concrete one-turn history and a non-record entry. -/
theorem c7_witness :
    _deserialize_history (_serialize_history
        [Turn.request (("hello").toList), Turn.response (("hi").toList)])
      = [Turn.request (("hello").toList), Turn.response (("hi").toList)] ∧
    _deserialize_history (RawEntry.prim (("junk").toList)
        :: _serialize_history [Turn.request (("hello").toList)])
      = _deserialize_history (_serialize_history [Turn.request (("hello").toList)]) :=
  ⟨c7_history_codec_roundtrip.1 _,
    c7_history_codec_roundtrip.2 (RawEntry.prim (("junk").toList)) _ (by decide)⟩

-- ── C8: delegate failure handling ───────────────────────────────────────────

/-- Whether the turn's routing reaches a generative-delegate call (the
Complete-phase restart and detail fast paths do not). -/
def usesDelegate (stored : StoredUser) (message : Str) : Bool :=
  match stored.phase with
  | ConversationPhase.interviewing => true
  | ConversationPhase.reviewing => true
  | ConversationPhase.recommending => true
  | ConversationPhase.complete =>
    let lower := pyStrip (pyLower message)
    !(restart_signals.any fun sig => containsSub sig lower) &&
      !((detail_signals.any fun sig => containsSub sig lower)
        && stored.profile.last_routine.isSome)

def errDelegates (e1 e2 : Str) : TurnDelegates :=
  { interview := .error e1, planner := .error e2 }

theorem detect_eq_ite (message : Str) :
    _detect_language message
      = (if message.any isHebrewChar then ("hebrew").toList else ("english").toList) := by
  induction message with
  | nil => rfl
  | cons c rest ih =>
    by_cases hc : isHebrewChar c = true
    · simp [_detect_language, hc, List.any_cons]
    · simp only [Bool.not_eq_true] at hc
      simp [_detect_language, hc, List.any_cons, ih]

theorem detect_ne_nil (message : Str) : _detect_language message ≠ [] := by
  rw [detect_eq_ite]
  split <;> simp

theorem languageUpdate (stored : StoredUser) (message : Str) :
    (if _detect_language message ≠ [] then
        { stored.profile with language := _detect_language message }
      else stored.profile)
      = { stored.profile with language := _detect_language message } := by
  rw [if_pos (detect_ne_nil message)]

theorem lastRoutine_language (p : UserProfile) (lang : Str) :
    ({ p with language := lang } : UserProfile).last_routine = p.last_routine := rfl

/-- C8 (amended): whenever the routed turn reaches a delegate call and the
delegate raises, `handle_message` catches the exception and returns exactly
the fixed English apology — independent of the exception text, so no internal
error detail leaks — and the stored conversation state is returned unchanged,
so nothing new is persisted. -/
theorem c8_delegate_error_apology (stored : StoredUser) (message : Str) (e1 e2 : Str)
    (h : usesDelegate stored message = true) :
    handle_message stored message (errDelegates e1 e2) = (stored, [apology_en]) := by
  cases hph : stored.phase
  case interviewing => simp [handle_message, hph, errDelegates]
  case reviewing =>
    simp only [handle_message, hph, errDelegates, _handle_review]
    split
    · rfl
    · rename_i heq
      split at heq <;> simp at heq
  case recommending => simp [handle_message, hph, errDelegates]
  case complete =>
    simp only [usesDelegate, hph, Bool.and_eq_true, Bool.not_eq_true'] at h
    simp only [handle_message, hph, errDelegates, _handle_complete, languageUpdate,
      lastRoutine_language, h.1, h.2, Bool.false_eq_true, if_false, reduceIte,
      Bool.and_eq_false_iff]

def hebrewStored : StoredUser := { profile := { language := ("hebrew").toList } }

/-- C8 counterexample: on a turn whose message is detected as Hebrew, a
delegate exception still yields the fixed English apology — the apology
contains no Hebrew character at all, so it is not localized to the detected
language (the state is nonetheless unchanged). -/
theorem c8_counterexample :
    _detect_language (("שלום").toList) = ("hebrew").toList ∧
    handle_message hebrewStored (("שלום").toList)
        (errDelegates (("boom").toList) (("crash").toList))
      = (hebrewStored, [apology_en]) ∧
    apology_en.all (fun c => !isHebrewChar c) = true := by decide

/-- C8 witness: the amended failure property evaluated at a concrete
interviewing-phase state. -/
theorem c8_witness :
    handle_message hebrewStored (("hi").toList) (errDelegates [] [])
      = (hebrewStored, [apology_en]) :=
  c8_delegate_error_apology hebrewStored (("hi").toList) [] [] (by decide)

-- ── C9: intake-buffer flush coalescing ──────────────────────────────────────

def msgA : _PendingMessage := { text := ("a").toList }

def msgImg : _PendingMessage :=
  { text := []
    image_data := some (("IMG").toList)
    media_url := some (("http://img").toList) }

def msgB : _PendingMessage := { text := ("b").toList }

/-- C9 counterexample: with an image-only fragment (empty text) between two
text fragments, the flush joins only the non-empty texts — `"a\n\nb"` — while
the blank-line join of all three fragment texts would be `"a\n\n\n\nb"`. -/
theorem c9_counterexample :
    (_process_buffer [msgA, msgImg, msgB]).map (fun ct => ct.text)
      = some (("a\n\nb").toList) ∧
    joinSep ('\n' :: '\n' :: []) ([msgA, msgImg, msgB].map fun m => m.text)
      = ("a\n\n\n\nb").toList ∧
    ("a\n\nb").toList ≠ ("a\n\n\n\nb").toList := by decide

theorem filter_map_text (l : List _PendingMessage) :
    ((l.map fun m => m.text).filter fun t => t ≠ [])
      = (l.filter fun m => m.text ≠ []).map fun m => m.text := by
  induction l with
  | nil => rfl
  | cons m rest ih =>
    simp only [decide_not] at ih
    by_cases h : m.text = [] <;> simp [h, ih, decide_not]

theorem find?_first {α : Type} (p : α → Bool) :
    ∀ (l : List α) (i : Nat) (hi : i < l.length),
      (∀ (j : Nat) (hj : j < l.length), j < i → p (l.get ⟨j, hj⟩) = false) →
      p (l.get ⟨i, hi⟩) = true →
      l.find? p = some (l.get ⟨i, hi⟩) := by
  intro l
  induction l with
  | nil => intro i hi; simp at hi
  | cons a rest ih =>
    intro i hi hprev hp
    cases i with
    | zero =>
      simp only [List.get] at hp
      simp [List.find?_cons, hp]
    | succ n =>
      have ha : p a = false := hprev 0 (by simp) (by omega)
      simp only [List.find?_cons, ha, Bool.false_eq_true, if_false, reduceIte]
      have hn : n < rest.length := by simpa using hi
      have hrec := ih n hn
        (fun j hj hlt => hprev (j + 1) (by simpa using Nat.succ_lt_succ hj)
          (Nat.succ_lt_succ hlt))
        (by simpa using hp)
      simpa using hrec

/-- C9 (amended): every non-empty buffered fragment list produces exactly one
combined message; its text is the blank-line join of the non-empty fragment
texts in arrival order (image-only fragments contribute no text), and its
attachment is the one carried by the first fragment that carries one. -/
theorem c9_flush_coalescing (messages : List _PendingMessage) (h : messages ≠ []) :
    ∃ ct, _process_buffer messages = some ct ∧
      ct.text = joinSep ('\n' :: '\n' :: [])
        ((messages.map fun m => m.text).filter fun t => t ≠ []) ∧
      ct.image_data
        = (messages.find? fun m => m.image_data.isSome).bind (fun m => m.image_data) ∧
      (∀ (i : Nat) (hi : i < messages.length),
        (∀ (j : Nat) (hj : j < messages.length), j < i →
          (messages.get ⟨j, hj⟩).image_data = none) →
        (messages.get ⟨i, hi⟩).image_data.isSome = true →
        ct.image_data = (messages.get ⟨i, hi⟩).image_data) := by
  unfold _process_buffer
  rw [if_neg h]
  refine ⟨_, rfl, ?_, rfl, ?_⟩
  · simp only [filter_map_text]
  · intro i hi hprev hp
    have hfind := find?_first (fun m => m.image_data.isSome) messages i hi
      (fun j hj hlt => by
        have := hprev j hj hlt
        simp only [List.get_eq_getElem] at this
        simp [this]) hp
    rw [hfind]
    rfl

/-- C9 witness: the amended coalescing property evaluated on the concrete
three-fragment buffer. -/
theorem c9_witness :
    ∃ ct, _process_buffer [msgA, msgImg, msgB] = some ct ∧
      ct.text = joinSep ('\n' :: '\n' :: [])
        (([msgA, msgImg, msgB].map fun m => m.text).filter fun t => t ≠ []) ∧
      ct.image_data
        = ([msgA, msgImg, msgB].find? fun m => m.image_data.isSome).bind
            (fun m => m.image_data) ∧
      (∀ (i : Nat) (hi : i < ([msgA, msgImg, msgB] : List _PendingMessage).length),
        (∀ (j : Nat) (hj : j < ([msgA, msgImg, msgB] : List _PendingMessage).length), j < i →
          (([msgA, msgImg, msgB] : List _PendingMessage).get ⟨j, hj⟩).image_data = none) →
        (([msgA, msgImg, msgB] : List _PendingMessage).get ⟨i, hi⟩).image_data.isSome = true →
        ct.image_data
          = (([msgA, msgImg, msgB] : List _PendingMessage).get ⟨i, hi⟩).image_data) :=
  c9_flush_coalescing [msgA, msgImg, msgB] (by decide)

-- ── C10: language detection overwrites on every turn ────────────────────────

def delegatesOk (d : TurnDelegates) : Bool :=
  (match d.interview with | .ok _ => true | .error _ => false) &&
  (match d.planner with | .ok _ => true | .error _ => false)

theorem handle_interview_language (profile : UserProfile) (history : List Turn)
    (r : InterviewResult) :
    (_handle_interview profile history r).2.1.language = profile.language := by
  unfold _handle_interview
  by_cases hc : (r.interview_complete
      && _is_profile_sufficient { r.profile with language := profile.language }) = true
  · simp only [hc, if_true, reduceIte]
  · simp only [Bool.not_eq_true] at hc
    simp only [hc, Bool.false_eq_true, if_false, reduceIte]

theorem handle_review_ok (profile : UserProfile) (message : Str) (history : List Turn)
    (d : TurnDelegates) (r : InterviewResult) (routine : SkincareRoutine)
    (hI : d.interview = .ok r) (hP : d.planner = .ok routine) :
    ∃ outcome, _handle_review profile message history d = Except.ok outcome ∧
      outcome.2.1.language = profile.language := by
  unfold _handle_review
  rw [hI, hP]
  by_cases hconf : (confirm_signals.any
      fun sig => containsSub sig (pyStrip (pyLower message))) = true
  · simp only [hconf, if_true, reduceIte]
    exact ⟨_, rfl, rfl⟩
  · simp only [Bool.not_eq_true] at hconf
    simp only [hconf, Bool.false_eq_true, if_false, reduceIte]
    by_cases hcomp : (r.interview_complete
        && _is_profile_sufficient { r.profile with language := profile.language }) = true
    · simp only [hcomp, if_true, reduceIte]
      exact ⟨_, rfl, rfl⟩
    · simp only [Bool.not_eq_true] at hcomp
      simp only [hcomp, Bool.false_eq_true, if_false, reduceIte]
      exact ⟨_, rfl, rfl⟩

theorem handle_complete_ok (profile : UserProfile) (message : Str) (history : List Turn)
    (d : TurnDelegates) (r : InterviewResult)
    (hI : d.interview = .ok r) :
    ∃ outcome, _handle_complete profile message history d = Except.ok outcome ∧
      outcome.2.1.language = profile.language := by
  unfold _handle_complete
  rw [hI]
  by_cases hres : (restart_signals.any
      fun sig => containsSub sig (pyStrip (pyLower message))) = true
  · simp only [hres, if_true, reduceIte]
    exact ⟨_, rfl, rfl⟩
  · simp only [Bool.not_eq_true] at hres
    simp only [hres, Bool.false_eq_true, if_false, reduceIte]
    by_cases hdet : ((detail_signals.any
        fun sig => containsSub sig (pyStrip (pyLower message)))
          && profile.last_routine.isSome) = true
    · simp only [hdet, if_true, reduceIte]
      cases hlr : profile.last_routine with
      | some routine =>
        simp only [hlr]
        exact ⟨_, rfl, rfl⟩
      | none =>
        simp only [hlr]
        exact ⟨_, rfl, rfl⟩
    · simp only [Bool.not_eq_true] at hdet
      simp only [hdet, Bool.false_eq_true, if_false, reduceIte]
      exact ⟨_, rfl, rfl⟩

/-- On every successfully handled turn the persisted language is exactly the
language detected from the current message. -/
theorem handle_message_language (stored : StoredUser) (message : Str) (d : TurnDelegates)
    (h : delegatesOk d = true) :
    (handle_message stored message d).1.profile.language = _detect_language message := by
  obtain ⟨result, hI⟩ : ∃ r, d.interview = .ok r := by
    cases hi : d.interview
    · simp [delegatesOk, hi] at h
    · exact ⟨_, rfl⟩
  obtain ⟨routine, hP⟩ : ∃ r, d.planner = .ok r := by
    cases hp2 : d.planner
    · simp [delegatesOk, hp2] at h
    · exact ⟨_, rfl⟩
  cases hph : stored.phase
  case interviewing =>
    simp only [handle_message, hph, hI, languageUpdate]
    rw [handle_interview_language]
  case reviewing =>
    obtain ⟨outcome, hrun, hlang⟩ := handle_review_ok
      { stored.profile with language := _detect_language message } message stored.history
      d result routine hI hP
    simp only [handle_message, hph, languageUpdate, hrun]
    exact hlang
  case recommending =>
    simp only [handle_message, hph, hP, languageUpdate]
    rfl
  case complete =>
    obtain ⟨outcome, hrun, hlang⟩ := handle_complete_ok
      { stored.profile with language := _detect_language message } message stored.history
      d result hI
    simp only [handle_message, hph, languageUpdate, hrun]
    exact hlang

/-- C10: on every successfully handled turn the profile language is
recomputed from the current message alone and overwrites the stored value:
it is "hebrew" exactly when the message contains a character in
U+0590–U+05FF and "english" otherwise — so one message without Hebrew
characters switches a previously Hebrew-speaking user back to English. -/
theorem c10_language_recomputed (stored : StoredUser) (message : Str) (d : TurnDelegates)
    (h : delegatesOk d = true) :
    ((handle_message stored message d).1.profile.language = ("hebrew").toList ↔
      ∃ c ∈ message, 0x590 ≤ c.toNat ∧ c.toNat ≤ 0x5ff) ∧
    (handle_message stored message d).1.profile.language
      = (if message.any isHebrewChar then ("hebrew").toList else ("english").toList) := by
  rw [handle_message_language stored message d h, detect_eq_ite]
  refine ⟨?_, rfl⟩
  by_cases hany : message.any isHebrewChar = true
  · simp only [hany, if_true, reduceIte, true_iff]
    simp only [List.any_eq_true, isHebrewChar, Bool.and_eq_true, decide_eq_true_eq] at hany
    exact hany
  · simp only [Bool.not_eq_true] at hany
    simp only [hany, Bool.false_eq_true, if_false, reduceIte]
    constructor
    · intro hcontra
      exact absurd hcontra (by decide)
    · intro hex
      exfalso
      obtain ⟨c, hc, hrange⟩ := hex
      have hco : message.any isHebrewChar = true := by
        simp only [List.any_eq_true]
        exact ⟨c, hc, by simp [isHebrewChar, hrange.1, hrange.2]⟩
      rw [hany] at hco
      exact absurd hco (by decide)

/-- C10 witness: the recomputation property evaluated on a previously
Hebrew-speaking stored state receiving a message without Hebrew characters. -/
theorem c10_witness :
    ((handle_message hebrewStored (("hello").toList) okDelegates).1.profile.language
        = ("hebrew").toList ↔
      ∃ c ∈ (("hello").toList), 0x590 ≤ c.toNat ∧ c.toNat ≤ 0x5ff) ∧
    (handle_message hebrewStored (("hello").toList) okDelegates).1.profile.language
      = (if (("hello").toList).any isHebrewChar then ("hebrew").toList
          else ("english").toList) :=
  c10_language_recomputed hebrewStored (("hello").toList) okDelegates (by decide)

/-- C3 witness: the merge frame conditions evaluated on a concrete profile
with an empty updates record and with an absent updates record. -/
theorem c3_witness :
    _apply_profile_updates fourFieldProfile none = fourFieldProfile ∧
    (_apply_profile_updates fourFieldProfile (some {})).skin_type
      = fourFieldProfile.skin_type ∧
    (_apply_profile_updates fourFieldProfile (some {})).health.is_pregnant
      = fourFieldProfile.health.is_pregnant ∧
    (_apply_profile_updates fourFieldProfile (some {})).skin_type ≠ none :=
  ⟨c3_merge_non_destructive.1 fourFieldProfile,
    (c3_merge_non_destructive.2.1 fourFieldProfile {}).1 rfl,
    (c3_merge_non_destructive.2.1 fourFieldProfile {}).2.2.2.1 rfl,
    (c3_merge_non_destructive.2.2 fourFieldProfile {}).1 (by decide)⟩
